import Mathlib

/-!
Verification of the `TimerKeeper.hpp` timed-event library.

The library is a small inheritance hierarchy of four C++ classes:
`Timer` (a stopwatch), `TimedEvent` (a due-time event with a wait duration,
a handled flag and a repeat flag), `JobEvent` (a `TimedEvent` carrying a
callback), and `PriorityEvent` (a `JobEvent` with an integer priority and a
strict-greater comparison).

Shallow embedding conventions:
* `Clock::time_point` values are modelled as integer nanosecond tick counts
  (`ℤ`); the source converts a tick difference to seconds by multiplying the
  `count()` by `pow(10, -9)`, which we model exactly as division by `10^9`
  over `ℚ`.
* `double` quantities (the wait time, lateness, elapsed seconds) are
  modelled as exact rationals (`ℚ`).
* Member functions that mutate the object become functions returning the
  updated record; `const` member functions stay pure.
* A single call of `handle()` observes a single clock instant: the `now`
  argument stands for the value of `Clock::now()` during that call.
* A callback (`std::function<void()>`) is modelled as a function on an
  abstract environment type `σ` that may also fail, `σ → Except Unit σ`;
  `Except.error` stands for the callback raising a C++ exception.
* `TimedEvent::handle` and `JobEvent::handle` are declared `noexcept` in the
  source.  In C++ an exception escaping a `noexcept` function does not reach
  the caller: `std::terminate` is invoked.  The outcome type `JobOutcome`
  therefore distinguishes a normal return, a propagated exception (which the
  source can never produce) and termination.
-/

namespace TimerKeeper

/-- Conversion of a nanosecond tick difference to seconds, modelling the
source expression `(b - a).count() * pow(10, -9)` exactly over `ℚ`. -/
def nsToSec (d : ℤ) : ℚ :=
  (d : ℚ) / 1000000000

/-- The `Timer` class: two `Clock::time_point` fields, modelled as
nanosecond tick counts. -/
structure Timer where
  startTime : ℤ
  endTime : ℤ
  deriving Repr, DecidableEq

/-- Member `Timer::getTimePassed`: `(endTime - startTime).count() * pow(10, -9)`. -/
def Timer.getTimePassed (t : Timer) : ℚ :=
  nsToSec (t.endTime - t.startTime)

/-- Member `Timer::start`: `startTime = Clock::now()`. -/
def Timer.start (t : Timer) (now : ℤ) : Timer :=
  { t with startTime := now }

/-- Member `Timer::stop`: `endTime = Clock::now()`. -/
def Timer.stop (t : Timer) (now : ℤ) : Timer :=
  { t with endTime := now }

/-- The `TimedEvent` class.  It privately inherits `Timer` but only ever
uses the inherited `startTime` field (via `start()`), so the embedding
stores `startTime` directly. -/
structure TimedEvent where
  startTime : ℤ
  handled : Bool
  repeated : Bool
  waitTime : ℚ
  deriving Repr, DecidableEq

/-- Member `TimedEvent::getLateness`:
`((Clock::now() - startTime).count() * pow(10, -9)) - waitTime`. -/
def TimedEvent.getLateness (e : TimedEvent) (now : ℤ) : ℚ :=
  nsToSec (now - e.startTime) - e.waitTime

/-- Member `TimedEvent::isDue`: `getLateness() >= 0`. -/
def TimedEvent.isDue (e : TimedEvent) (now : ℤ) : Bool :=
  decide (e.getLateness now ≥ 0)

/-- Member `TimedEvent::isHandled`: returns the `handled` flag. -/
def TimedEvent.isHandled (e : TimedEvent) : Bool :=
  e.handled

/-- Member `TimedEvent::shouldHandle`: `!handled && isDue()`. -/
def TimedEvent.shouldHandle (e : TimedEvent) (now : ℤ) : Bool :=
  !e.handled && e.isDue now

/-- Member `TimedEvent::handle`: if `shouldHandle()` then either restart the
timer (`start()`, i.e. `startTime := now`) when `repeated`, or set
`handled := true` otherwise, and return `true`; else return `false` with no
change. -/
def TimedEvent.handle (e : TimedEvent) (now : ℤ) : TimedEvent × Bool :=
  if e.shouldHandle now then
    if e.repeated then
      ({ e with startTime := now }, true)
    else
      ({ e with handled := true }, true)
  else
    (e, false)

/-- Constructor `TimedEvent(bool rep, double wt)`: stores `rep` and `wt`
unchanged, sets `handled` to `false` and calls `start()`, so `startTime` is
the construction instant. -/
def TimedEvent.construct (rep : Bool) (wt : ℚ) (now : ℤ) : TimedEvent :=
  { startTime := now, handled := false, repeated := rep, waitTime := wt }

/-- A sequence of `handle()` calls at the given clock instants, returning
the final event state and the list of returned booleans. -/
def TimedEvent.handleSeq (e : TimedEvent) : List ℤ → TimedEvent × List Bool
  | [] => (e, [])
  | t :: ts =>
    let r := e.handle t
    let rest := r.1.handleSeq ts
    (rest.1, r.2 :: rest.2)

/-- A callback (`std::function<void()>`) acting on an abstract captured
environment `σ`; `Except.error ()` models the callback raising an
exception. -/
def Callback (σ : Type) : Type :=
  σ → Except Unit σ

/-- The `JobEvent` class: a `TimedEvent` together with its `job` callback. -/
structure JobEvent (σ : Type) where
  toTimedEvent : TimedEvent
  job : Callback σ

/-- Member `JobEvent::getJob`. -/
def JobEvent.getJob (e : JobEvent σ) : Callback σ :=
  e.job

/-- Member `JobEvent::setJob`. -/
def JobEvent.setJob (e : JobEvent σ) (cb : Callback σ) : JobEvent σ :=
  { e with job := cb }

/-- Outcome of one `JobEvent::handle()` call, recording how many times the
`job` callback was entered.  `ret` is a normal return carrying the callback
environment and the returned boolean; `thrown` would be an exception
propagating to the caller; `terminated` is `std::terminate`, which is what
an exception escaping this `noexcept` member actually causes. -/
inductive JobOutcome (σ : Type) where
  | ret (jobCalls : ℕ) (s : σ) (result : Bool)
  | thrown (jobCalls : ℕ)
  | terminated (jobCalls : ℕ)

/-- Number of times the callback was entered during the call. -/
def JobOutcome.calls : JobOutcome σ → ℕ
  | .ret n _ _ => n
  | .thrown n => n
  | .terminated n => n

/-- Whether the outcome is an exception propagating to the caller. -/
def JobOutcome.propagates : JobOutcome σ → Bool
  | .thrown _ => true
  | _ => false

/-- Member `JobEvent::handle` (a `noexcept` override): first calls the
inherited `TimedEvent::handle()`; if and only if that returned `true` it
executes `job()`; it then returns the same boolean.  If `job()` raises, the
exception cannot leave the `noexcept` member: the program terminates, with
the event already holding the state transitioned by `TimedEvent::handle()`. -/
def JobEvent.handle (e : JobEvent σ) (now : ℤ) (s : σ) :
    JobEvent σ × JobOutcome σ :=
  let r := e.toTimedEvent.handle now
  let e' : JobEvent σ := { e with toTimedEvent := r.1 }
  if r.2 then
    match e.job s with
    | Except.ok s' => (e', JobOutcome.ret 1 s' true)
    | Except.error _ => (e', JobOutcome.terminated 1)
  else
    (e', JobOutcome.ret 0 s false)

/-- Constructor `JobEvent(Callback cb, bool rep, double wt)`. -/
def JobEvent.construct (cb : Callback σ) (rep : Bool) (wt : ℚ) (now : ℤ) :
    JobEvent σ :=
  { toTimedEvent := TimedEvent.construct rep wt now, job := cb }

/-- The `PriorityEvent` class: a `JobEvent` with an integer priority. -/
structure PriorityEvent (σ : Type) where
  toJobEvent : JobEvent σ
  priority : ℤ

/-- Member `PriorityEvent::getPriority`. -/
def PriorityEvent.getPriority (e : PriorityEvent σ) : ℤ :=
  e.priority

/-- Member `PriorityEvent::setPriority`. -/
def PriorityEvent.setPriority (e : PriorityEvent σ) (p : ℤ) : PriorityEvent σ :=
  { e with priority := p }

/-- Member `PriorityEvent::hasPriority`: `priority > event.getPriority()`. -/
def PriorityEvent.hasPriority (e other : PriorityEvent σ) : Bool :=
  decide (e.priority > other.getPriority)

/-- Member `PriorityEvent::operator>`: `hasPriority(event)`. -/
def PriorityEvent.gt (e other : PriorityEvent σ) : Bool :=
  e.hasPriority other

/-- The class `PriorityEvent` does not override `handle`; a call on a `PriorityEvent`
runs the inherited `JobEvent::handle` on its `JobEvent` subobject. -/
def PriorityEvent.handle (e : PriorityEvent σ) (now : ℤ) (s : σ) :
    PriorityEvent σ × JobOutcome σ :=
  let r := e.toJobEvent.handle now s
  ({ e with toJobEvent := r.1 }, r.2)

/-- Constructor `PriorityEvent(Callback cb, int p, bool rep, double wt)`. -/
def PriorityEvent.construct (cb : Callback σ) (p : ℤ) (rep : Bool) (wt : ℚ)
    (now : ℤ) : PriorityEvent σ :=
  { toJobEvent := JobEvent.construct cb rep wt now, priority := p }

/-- A reference typed as the base `TimedEvent` may dynamically carry any of
the three classes; `handle()` is `virtual`, so a call through the base
reference dispatches on the dynamic type. -/
inductive AnyEvent (σ : Type) where
  | timed (e : TimedEvent)
  | jobE (e : JobEvent σ)
  | priorityE (e : PriorityEvent σ)

/-- Virtual dispatch of `handle()` through a base-typed reference: the
most-derived override runs.  A plain `TimedEvent` has no callback, so its
outcome is a normal return with zero callback entries. -/
def AnyEvent.handle : AnyEvent σ → ℤ → σ → AnyEvent σ × JobOutcome σ
  | .timed e, now, s =>
    let r := e.handle now
    (.timed r.1, JobOutcome.ret 0 s r.2)
  | .jobE e, now, s =>
    let r := e.handle now s
    (.jobE r.1, r.2)
  | .priorityE e, now, s =>
    let r := e.handle now s
    (.priorityE r.1, r.2)

/- Helper lemmas shared by several claims. -/

/-- An event whose `handled` flag is set never satisfies `shouldHandle`. -/
theorem shouldHandle_of_handled {e : TimedEvent} (h : e.handled = true)
    (now : ℤ) : e.shouldHandle now = false := by
  simp [TimedEvent.shouldHandle, h]

/-- Calling `handle()` on an already-handled event changes nothing and returns
`false`. -/
theorem handle_of_handled {e : TimedEvent} (h : e.handled = true) (now : ℤ) :
    e.handle now = (e, false) := by
  simp [TimedEvent.handle, shouldHandle_of_handled h]

/-- A whole sequence of `handle()` calls on an already-handled event changes
nothing and returns `false` every time. -/
theorem handleSeq_of_handled {e : TimedEvent} (h : e.handled = true) :
    ∀ ts : List ℤ, e.handleSeq ts = (e, ts.map fun _ => false) := by
  intro ts
  induction ts with
  | nil => rfl
  | cons t ts ih =>
    simp [TimedEvent.handleSeq, handle_of_handled h, ih]

/-- The call `handle()` returns `true` exactly when `shouldHandle()` holds. -/
theorem handle_snd (e : TimedEvent) (now : ℤ) :
    (e.handle now).2 = e.shouldHandle now := by
  cases h : e.shouldHandle now with
  | false => simp [TimedEvent.handle, h]
  | true =>
    cases hr : e.repeated with
    | false => simp [TimedEvent.handle, h, hr]
    | true => simp [TimedEvent.handle, h, hr]

/-- A `handle()` call never changes the `repeated` flag. -/
theorem handle_repeated (e : TimedEvent) (now : ℤ) :
    (e.handle now).1.repeated = e.repeated := by
  cases h : e.shouldHandle now with
  | false => simp [TimedEvent.handle, h]
  | true => cases hr : e.repeated <;> simp [TimedEvent.handle, h, hr]

/-- On a repeated event, `handle()` never changes the `handled` flag. -/
theorem handle_handled_of_repeated (e : TimedEvent) (now : ℤ)
    (hr : e.repeated = true) : (e.handle now).1.handled = e.handled := by
  cases h : e.shouldHandle now with
  | false => simp [TimedEvent.handle, h]
  | true => simp [TimedEvent.handle, h, hr]

/-- Along any sequence of `handle()` calls, a repeated, unhandled event
stays repeated and unhandled. -/
theorem handleSeq_handled_of_repeated :
    ∀ (ts : List ℤ) (e : TimedEvent), e.repeated = true → e.handled = false →
      (e.handleSeq ts).1.handled = false ∧ (e.handleSeq ts).1.repeated = true := by
  intro ts
  induction ts with
  | nil => intro e hr hh; exact ⟨hh, hr⟩
  | cons t ts ih =>
    intro e hr hh
    have h1 : (e.handle t).1.repeated = true := by
      rw [handle_repeated]; exact hr
    have h2 : (e.handle t).1.handled = false := by
      rw [handle_handled_of_repeated e t hr]; exact hh
    simpa [TimedEvent.handleSeq] using ih (e.handle t).1 h1 h2

/-- C1.  `TimedEvent::handle()` is exactly the three-transition state
machine: not due or already handled means no change and `false`; due and
repeated means restart from the current instant (`startTime := now`, not
`startTime + waitTime`, so the restarted event is exactly `waitTime` early
again and a recurring event drifts by its own lateness) with `handled`
still `false`, returning `true`; due and not repeated means `handled :=
true`, returning `true`. -/
theorem timedEvent_handle_state_machine (e : TimedEvent) (now : ℤ) :
    (e.shouldHandle now = false → e.handle now = (e, false)) ∧
    (e.shouldHandle now = true → e.repeated = true →
      e.handle now = ({ e with startTime := now }, true) ∧
      (e.handle now).1.handled = false ∧
      (e.handle now).1.getLateness now = -e.waitTime) ∧
    (e.shouldHandle now = true → e.repeated = false →
      e.handle now = ({ e with handled := true }, true)) := by
  refine ⟨?_, ?_, ?_⟩
  · intro h
    simp [TimedEvent.handle, h]
  · intro h hr
    have hh : e.handled = false := by
      by_contra hc
      simp [Bool.not_eq_false] at hc
      simp [shouldHandle_of_handled hc] at h
    refine ⟨by simp [TimedEvent.handle, h, hr], ?_, ?_⟩
    · simp [TimedEvent.handle, h, hr, hh]
    · simp [TimedEvent.handle, h, hr, TimedEvent.getLateness, nsToSec]
  · intro h hr
    simp [TimedEvent.handle, h, hr]

/-- Witness for C1 at concrete inputs: an overdue repeated event restarts
from the current instant. -/
theorem timedEvent_handle_state_machine_witness :
    (TimedEvent.construct true 1 0).handle 2000000000 =
      ({ startTime := 2000000000, handled := false, repeated := true,
         waitTime := 1 }, true) :=
  ((timedEvent_handle_state_machine (TimedEvent.construct true 1 0)
    2000000000).2.1
    (by
      simp [TimedEvent.construct, TimedEvent.shouldHandle, TimedEvent.isDue,
        TimedEvent.getLateness, nsToSec]
      norm_num)
    rfl).1

/-- C3.  A one-shot event never fires twice: once a `handle()` call has
returned `true` (so `handled = true`), every later `handle()` call returns
`false` and changes no field, and `isHandled()` stays `true` through any
sequence of further calls. -/
theorem oneShot_fires_once (e : TimedEvent) (now : ℤ)
    (hrep : e.repeated = false) (hfired : (e.handle now).2 = true)
    (ts : List ℤ) :
    (e.handle now).1.isHandled = true ∧
    (e.handle now).1.handleSeq ts =
      ((e.handle now).1, ts.map fun _ => false) ∧
    ((e.handle now).1.handleSeq ts).1.isHandled = true := by
  have hsh : e.shouldHandle now = true := by
    rw [← handle_snd]; exact hfired
  have h1 : (e.handle now).1.handled = true := by
    simp [TimedEvent.handle, hsh, hrep]
  refine ⟨h1, handleSeq_of_handled h1 ts, ?_⟩
  rw [handleSeq_of_handled h1 ts]
  exact h1

/-- Witness for C3: a one-shot event that fired at `t = 2s` returns `false`
at both later polls and stays handled. -/
theorem oneShot_fires_once_witness :
    ((TimedEvent.construct false 1 0).handle 2000000000).1.handleSeq
        [3000000000, 4000000000] =
      (((TimedEvent.construct false 1 0).handle 2000000000).1,
        [false, false]) :=
  (oneShot_fires_once (TimedEvent.construct false 1 0) 2000000000 rfl
    (by
      rw [handle_snd]
      simp [TimedEvent.construct, TimedEvent.shouldHandle, TimedEvent.isDue,
        TimedEvent.getLateness, nsToSec]
      norm_num)
    [3000000000, 4000000000]).2.1

/-- C4.  A recurring event is never handled: `handled = false` holds after
construction, is preserved by `handle()` (and by whole sequences of
`handle()` calls), and the observers `getLateness`, `isDue`, `isHandled`,
`shouldHandle` as well as the derived-class setters `setJob` and
`setPriority` touch no `TimedEvent` field (the observers are pure in the
embedding; the setters leave the embedded `TimedEvent` intact), so
`isHandled()` invariantly returns `false`; moreover any `handle()` that
returns `true` sets `startTime` to the current instant, so `getLateness` at
that instant is exactly `-waitTime` again. -/
theorem recurring_never_handled :
    (∀ (w : ℚ) (t0 : ℤ), (TimedEvent.construct true w t0).handled = false) ∧
    (∀ (e : TimedEvent) (now : ℤ), e.repeated = true →
      (e.handle now).1.handled = e.handled) ∧
    (∀ (e : TimedEvent), e.repeated = true → e.handled = false →
      ∀ ts : List ℤ, (e.handleSeq ts).1.isHandled = false) ∧
    (∀ (e : TimedEvent) (now : ℤ), e.repeated = true →
      (e.handle now).2 = true →
      (e.handle now).1.startTime = now ∧
      (e.handle now).1.getLateness now = -e.waitTime) ∧
    (∀ (σ : Type) (je : JobEvent σ) (cb : Callback σ),
      (je.setJob cb).toTimedEvent = je.toTimedEvent) ∧
    (∀ (σ : Type) (pe : PriorityEvent σ) (p : ℤ),
      (pe.setPriority p).toJobEvent = pe.toJobEvent) := by
  refine ⟨fun w t0 => rfl, ?_, ?_, ?_, fun σ je cb => rfl, fun σ pe p => rfl⟩
  · intro e now hr
    exact handle_handled_of_repeated e now hr
  · intro e hr hh ts
    exact (handleSeq_handled_of_repeated ts e hr hh).1
  · intro e now hr hfired
    have hsh : e.shouldHandle now = true := by
      rw [← handle_snd]; exact hfired
    constructor
    · simp [TimedEvent.handle, hsh, hr]
    · simp [TimedEvent.handle, hsh, hr, TimedEvent.getLateness, nsToSec]

/-- Witness for C4: a recurring event polled twice after construction is
still unhandled. -/
theorem recurring_never_handled_witness :
    ((TimedEvent.construct true 1 0).handleSeq
      [2000000000, 3000000000]).1.isHandled = false :=
  recurring_never_handled.2.2.1 (TimedEvent.construct true 1 0) rfl rfl
    [2000000000, 3000000000]

/-- C5 counterexample: the constructor neither clamps a negative wait time
to zero nor refuses construction; `TimedEvent(false, -1)` stores the
negative wait time unchanged, so a constructed event can hold
`waitTime < 0`. -/
theorem negativeWait_not_rejected :
    (TimedEvent.construct false (-1) 0).waitTime = -1 ∧
    ¬ (0 ≤ (TimedEvent.construct false (-1) 0).waitTime) := by
  refine ⟨rfl, ?_⟩
  simp [TimedEvent.construct]

/-- C5 amended: constructing an event with a negative wait time is not
rejected — the constructor is total and stores `waitTime` unchanged
(no clamping and no refusal), with `handled = false`, `startTime` the
construction instant, and the given repeat flag. -/
theorem construct_stores_fields (rep : Bool) (w : ℚ) (t0 : ℤ) :
    (TimedEvent.construct rep w t0).waitTime = w ∧
    (TimedEvent.construct rep w t0).handled = false ∧
    (TimedEvent.construct rep w t0).startTime = t0 ∧
    (TimedEvent.construct rep w t0).repeated = rep :=
  ⟨rfl, rfl, rfl, rfl⟩

/-- C10.  For a negative wait time `w < 0` the constructor succeeds and
stores `w` unchanged, and the event is permanently due: at every instant
from construction onward (`t0 ≤ now`, the clock being monotonic) the
lateness equals elapsed-minus-`w` and is strictly positive, `isDue()` and
`shouldHandle()` hold while `handled` is `false`, and the very first
`handle()` call returns `true`. -/
theorem negativeWait_permanently_due (rep : Bool) (w : ℚ) (t0 now : ℤ)
    (hw : w < 0) (hnow : t0 ≤ now) :
    (TimedEvent.construct rep w t0).waitTime = w ∧
    (TimedEvent.construct rep w t0).getLateness now =
      nsToSec (now - t0) - w ∧
    0 < (TimedEvent.construct rep w t0).getLateness now ∧
    (TimedEvent.construct rep w t0).isDue now = true ∧
    (TimedEvent.construct rep w t0).handled = false ∧
    (TimedEvent.construct rep w t0).shouldHandle now = true ∧
    ((TimedEvent.construct rep w t0).handle now).2 = true := by
  have hel : (0 : ℚ) ≤ nsToSec (now - t0) := by
    unfold nsToSec
    apply div_nonneg
    · exact_mod_cast sub_nonneg.mpr hnow
    · norm_num
  have hlat : (TimedEvent.construct rep w t0).getLateness now =
      nsToSec (now - t0) - w := rfl
  have hpos : 0 < (TimedEvent.construct rep w t0).getLateness now := by
    rw [hlat]; linarith
  have hdue : (TimedEvent.construct rep w t0).isDue now = true := by
    simp [TimedEvent.isDue]
    linarith
  have hsh : (TimedEvent.construct rep w t0).shouldHandle now = true := by
    simp [TimedEvent.shouldHandle, TimedEvent.construct] at hdue ⊢
    exact hdue
  refine ⟨rfl, hlat, hpos, hdue, rfl, hsh, ?_⟩
  rw [handle_snd]
  exact hsh

/-- Witness for C10: an event constructed with `waitTime = -1` is due at the
very instant of construction and its first `handle()` returns `true`. -/
theorem negativeWait_permanently_due_witness :
    ((TimedEvent.construct false (-1) 0).handle 0).2 = true :=
  (negativeWait_permanently_due false (-1) 0 0 (by norm_num)
    le_rfl).2.2.2.2.2.2

/-- C2.  `JobEvent::handle()` first runs the inherited
`TimedEvent::handle()` — the returned event carries exactly the inherited
transition, whatever the callback then does — enters the stored callback
exactly once if and only if the inherited call returned `true`, and, on a
normal return, returns the same boolean as the inherited call. -/
theorem jobEvent_handle_contract (σ : Type) (e : JobEvent σ) (now : ℤ)
    (s : σ) :
    (e.handle now s).1 =
      { e with toTimedEvent := (e.toTimedEvent.handle now).1 } ∧
    (e.handle now s).2.calls =
      (if (e.toTimedEvent.handle now).2 then 1 else 0) ∧
    (∀ (n : ℕ) (s' : σ) (b : Bool),
      (e.handle now s).2 = JobOutcome.ret n s' b →
      b = (e.toTimedEvent.handle now).2) := by
  cases hr : (e.toTimedEvent.handle now).2 with
  | false =>
    refine ⟨by simp [JobEvent.handle, hr], by simp [JobEvent.handle, hr,
      JobOutcome.calls], ?_⟩
    intro n s' b h
    simp [JobEvent.handle, hr] at h
    simp [hr, h.2.2]
  | true =>
    cases hj : e.job s with
    | ok s1 =>
      refine ⟨by simp [JobEvent.handle, hr, hj], by simp [JobEvent.handle,
        hr, hj, JobOutcome.calls], ?_⟩
      intro n s' b h
      simp [JobEvent.handle, hr, hj] at h
      simp [hr, h.2.2]
    | error u =>
      refine ⟨by simp [JobEvent.handle, hr, hj], by simp [JobEvent.handle,
        hr, hj, JobOutcome.calls], ?_⟩
      intro n s' b h
      simp [JobEvent.handle, hr, hj] at h

/-- Witness for C2: a due one-shot event with a counter-incrementing
callback returns the same boolean (`true`) as the inherited call. -/
theorem jobEvent_handle_contract_witness :
    (true : Bool) =
      ((JobEvent.construct (fun n : ℕ => Except.ok (n + 1)) false 1
        0).toTimedEvent.handle 2000000000).2 := by
  have hfire : ((TimedEvent.construct false 1 0).handle 2000000000).2 =
      true := by
    rw [handle_snd]
    simp [TimedEvent.construct, TimedEvent.shouldHandle,
      TimedEvent.isDue, TimedEvent.getLateness, nsToSec]
    norm_num
  exact (jobEvent_handle_contract ℕ
    (JobEvent.construct (fun n : ℕ => Except.ok (n + 1)) false 1 0)
    2000000000 0).2.2 1 1 true
    (by simp [JobEvent.handle, JobEvent.construct, hfire])

/-- C6 counterexample: the failure of a callback does not propagate to the
caller of `handle()`.  `JobEvent::handle` is declared `noexcept`, so an
exception raised by the callback of a due one-shot event causes
`std::terminate` instead of reaching the caller: at this concrete input the
outcome is `terminated`, not a propagated exception. -/
theorem callbackException_does_not_propagate :
    ((⟨TimedEvent.construct false 0 0, fun _ => Except.error ()⟩ :
        JobEvent ℕ).handle 1000000000 0).2.propagates = false ∧
    ((⟨TimedEvent.construct false 0 0, fun _ => Except.error ()⟩ :
        JobEvent ℕ).handle 1000000000 0).2 = JobOutcome.terminated 1 := by
  have hfire : ((⟨TimedEvent.construct false 0 0, fun _ => Except.error ()⟩ :
      JobEvent ℕ).toTimedEvent.handle 1000000000).2 = true := by
    rw [handle_snd]
    simp [TimedEvent.construct, TimedEvent.shouldHandle, TimedEvent.isDue,
      TimedEvent.getLateness, nsToSec]
  constructor
  · simp [JobEvent.handle, hfire, JobOutcome.propagates]
  · simp [JobEvent.handle, hfire]

/-- C6 amended: when the callback of a due event raises during `handle()`,
the state transition has already occurred — the event returned alongside
the outcome carries exactly the inherited `TimedEvent::handle()` transition,
and for a one-shot event `isHandled()` is `true` and every later `handle()`
returns `false` — but because `handle()` is `noexcept` the failure does not
propagate to the caller: the call ends in `std::terminate` (outcome
`terminated`), and no `JobEvent::handle()` call ever produces a propagated
exception. -/
theorem callbackException_state_advanced (σ : Type) (e : JobEvent σ)
    (now : ℤ) (s : σ) (hfire : (e.toTimedEvent.handle now).2 = true)
    (herr : e.job s = Except.error ()) :
    (e.handle now s).2 = JobOutcome.terminated 1 ∧
    (e.handle now s).1 =
      { e with toTimedEvent := (e.toTimedEvent.handle now).1 } ∧
    (e.toTimedEvent.repeated = false →
      (e.handle now s).1.toTimedEvent.isHandled = true ∧
      ∀ (t2 : ℤ) (s2 : σ),
        ((e.handle now s).1.handle t2 s2).2 = JobOutcome.ret 0 s2 false) ∧
    (∀ (e2 : JobEvent σ) (t2 : ℤ) (s2 : σ),
      (e2.handle t2 s2).2.propagates = false) := by
  have hsh : e.toTimedEvent.shouldHandle now = true := by
    rw [← handle_snd]; exact hfire
  refine ⟨by simp [JobEvent.handle, hfire, herr],
    by simp [JobEvent.handle, hfire, herr], ?_, ?_⟩
  · intro hrep
    have hst : (e.handle now s).1.toTimedEvent =
        (e.toTimedEvent.handle now).1 := by
      simp [JobEvent.handle, hfire, herr]
    have hh : (e.handle now s).1.toTimedEvent.handled = true := by
      rw [hst]
      simp [TimedEvent.handle, hsh, hrep]
    refine ⟨hh, fun t2 s2 => ?_⟩
    generalize hE : (e.handle now s).1 = E at hh
    simp [JobEvent.handle, handle_of_handled hh]
  · intro e2 t2 s2
    cases hr2 : (e2.toTimedEvent.handle t2).2 with
    | false => simp [JobEvent.handle, hr2, JobOutcome.propagates]
    | true =>
      cases hj2 : e2.job s2 with
      | ok s3 => simp [JobEvent.handle, hr2, hj2, JobOutcome.propagates]
      | error u => simp [JobEvent.handle, hr2, hj2, JobOutcome.propagates]

/-- Witness for amended C6: a due one-shot event whose callback raises ends
in termination with the handled flag already set. -/
theorem callbackException_state_advanced_witness :
    ((⟨TimedEvent.construct false 0 0, fun _ => Except.error ()⟩ :
        JobEvent ℕ).handle 500000000 7).2 = JobOutcome.terminated 1 := by
  have hfire : ((⟨TimedEvent.construct false 0 0, fun _ => Except.error ()⟩ :
      JobEvent ℕ).toTimedEvent.handle 500000000).2 = true := by
    rw [handle_snd]
    simp [TimedEvent.construct, TimedEvent.shouldHandle, TimedEvent.isDue,
      TimedEvent.getLateness, nsToSec]
    norm_num
  exact (callbackException_state_advanced ℕ
    ⟨TimedEvent.construct false 0 0, fun _ => Except.error ()⟩
    500000000 7 hfire rfl).1

/-- C7.  `operator>` agrees with `hasPriority` and holds exactly when the
left operand's signed integer priority is strictly greater; the relation is
irreflexive, antisymmetric and transitive, and two events of equal priority
are unordered in both directions. -/
theorem priority_strict_order (σ : Type) (a b c : PriorityEvent σ) :
    (a.gt b = true ↔ a.priority > b.priority) ∧
    a.hasPriority b = a.gt b ∧
    a.gt a = false ∧
    (a.gt b = true → b.gt a = false) ∧
    (a.gt b = true → b.gt c = true → a.gt c = true) ∧
    (a.priority = b.priority → a.gt b = false ∧ b.gt a = false) := by
  refine ⟨by simp [PriorityEvent.gt, PriorityEvent.hasPriority,
      PriorityEvent.getPriority], rfl,
    by simp [PriorityEvent.gt, PriorityEvent.hasPriority,
      PriorityEvent.getPriority], ?_, ?_, ?_⟩
  · intro h
    simp [PriorityEvent.gt, PriorityEvent.hasPriority,
      PriorityEvent.getPriority] at h ⊢
    omega
  · intro h1 h2
    simp [PriorityEvent.gt, PriorityEvent.hasPriority,
      PriorityEvent.getPriority] at h1 h2 ⊢
    omega
  · intro h
    simp [PriorityEvent.gt, PriorityEvent.hasPriority,
      PriorityEvent.getPriority]
    omega

/-- Witness for C7 at priorities 7 > 6 > 5: transitivity yields 7 > 5. -/
theorem priority_strict_order_witness :
    (PriorityEvent.construct (fun n : ℕ => Except.ok n) 7 false 1 0).gt
      (PriorityEvent.construct (fun n : ℕ => Except.ok n) 5 false 1 0) =
      true :=
  (priority_strict_order ℕ
    (PriorityEvent.construct (fun n : ℕ => Except.ok n) 7 false 1 0)
    (PriorityEvent.construct (fun n : ℕ => Except.ok n) 6 false 1 0)
    (PriorityEvent.construct (fun n : ℕ => Except.ok n) 5 false 1 0)).2.2.2.2.1
    (by decide) (by decide)

/-- C8.  `handle()` dispatches on the dynamic type: calling through a
base-typed `TimedEvent` reference carrying a `JobEvent` or `PriorityEvent`
yields exactly the event and outcome of the concrete type's own `handle()`,
and in particular the user callback is still entered (exactly once) when a
`PriorityEvent` fires through the base reference. -/
theorem handle_polymorphic_dispatch (σ : Type) (je : JobEvent σ)
    (pe : PriorityEvent σ) (now : ℤ) (s : σ) :
    AnyEvent.handle (AnyEvent.jobE je) now s =
      (AnyEvent.jobE (je.handle now s).1, (je.handle now s).2) ∧
    AnyEvent.handle (AnyEvent.priorityE pe) now s =
      (AnyEvent.priorityE (pe.handle now s).1, (pe.handle now s).2) ∧
    (pe.toJobEvent.toTimedEvent.shouldHandle now = true →
      (AnyEvent.handle (AnyEvent.priorityE pe) now s).2.calls = 1) := by
  refine ⟨rfl, rfl, ?_⟩
  intro h
  have hfire : (pe.toJobEvent.toTimedEvent.handle now).2 = true := by
    rw [handle_snd]; exact h
  cases hj : pe.toJobEvent.job s with
  | ok s1 =>
    simp [AnyEvent.handle, PriorityEvent.handle, JobEvent.handle, hfire, hj,
      JobOutcome.calls]
  | error u =>
    simp [AnyEvent.handle, PriorityEvent.handle, JobEvent.handle, hfire, hj,
      JobOutcome.calls]

/-- Witness for C8: a due `PriorityEvent` handled through the base-typed
reference still enters its callback exactly once. -/
theorem handle_polymorphic_dispatch_witness :
    (AnyEvent.handle
      (AnyEvent.priorityE
        (PriorityEvent.construct (fun n : ℕ => Except.ok (n + 1)) 3 false 1
          0)) 2000000000 0).2.calls = 1 :=
  (handle_polymorphic_dispatch ℕ
    (JobEvent.construct (fun n : ℕ => Except.ok (n + 1)) false 1 0)
    (PriorityEvent.construct (fun n : ℕ => Except.ok (n + 1)) 3 false 1 0)
    2000000000 0).2.2
    (by
      simp [PriorityEvent.construct, JobEvent.construct,
        TimedEvent.construct, TimedEvent.shouldHandle, TimedEvent.isDue,
        TimedEvent.getLateness, nsToSec]
      norm_num)

/-- C9.  After `start()` at instant `t1` and `stop()` at instant `t2 ≥ t1`
(the clock is monotonic), `getTimePassed()` returns the tick difference
`endTime - startTime` expressed in seconds, and the result is
nonnegative. -/
theorem getTimePassed_elapsed (t : Timer) (t1 t2 : ℤ) (h : t1 ≤ t2) :
    ((t.start t1).stop t2).getTimePassed = nsToSec (t2 - t1) ∧
    0 ≤ ((t.start t1).stop t2).getTimePassed := by
  have h1 : ((t.start t1).stop t2).getTimePassed = nsToSec (t2 - t1) := rfl
  refine ⟨h1, ?_⟩
  rw [h1]
  unfold nsToSec
  apply div_nonneg
  · exact_mod_cast sub_nonneg.mpr h
  · norm_num

/-- Witness for C9: one second of ticks between `start` and `stop` gives a
time passed of one second. -/
theorem getTimePassed_elapsed_witness :
    ((Timer.start ⟨0, 0⟩ 0).stop 1000000000).getTimePassed =
      nsToSec 1000000000 :=
  (getTimePassed_elapsed ⟨0, 0⟩ 0 1000000000 (by norm_num)).1

end TimerKeeper
